import Mathlib

/-!
Verification of the data-access facade in `src/lib/prisma.ts`
(Wafi_ECommerce). The facade routes entity operations between a "main"
connection (reads, default writes) and a "primary" connection (writes
explicitly flagged with `writeToPrimary`), strips the routing flag before
forwarding, wraps errors with diagnostic context, routes transactions,
exposes a health probe and a graceful shutdown routine.

The embedding models JavaScript argument bags as association lists of
string keys and runtime values, thrown values as either `Error` instances
(carrying a message) or arbitrary non-`Error` values, and promises /
fallible calls as `Except`.
-/

namespace Wafi

/-- JavaScript runtime values occurring in the facade's argument bags and
thrown positions. -/
inductive JVal where
  | undefined : JVal
  | null : JVal
  | bool : Bool → JVal
  | num : Int → JVal
  | str : String → JVal
deriving DecidableEq

/-- JavaScript truthiness of a `JVal`, as used by `if (args?.writeToPrimary)`
and `if (writeToPrimary)` in the source. -/
def truthy : JVal → Bool
  | .undefined => false
  | .null => false
  | .bool b => b
  | .num n => n != 0
  | .str s => s != ""

/-- A JavaScript argument bag: the ordered own-property list of an object. -/
abbrev Args := List (String × JVal)

/-- Property read `args[k]`: the stored value, or `undefined` when the key is
absent. -/
def jsGet (args : Args) (k : String) : JVal :=
  (args.lookup k).getD .undefined

/-- The fixed `WRITE_METHODS` enumeration from the source. -/
def WRITE_METHODS : List String :=
  ["create", "update", "delete", "upsert", "createMany", "updateMany", "deleteMany"]

/-- `isWriteMethod`: membership in `WRITE_METHODS`
(`WRITE_METHODS.includes(method)`). -/
def isWriteMethod (method : String) : Bool :=
  WRITE_METHODS.contains method

/-- `cleanOptions(args, keys)`: spread-copy the bag and delete each listed
key from the copy (`keys.forEach(key => delete cleaned[key])`). -/
def cleanOptions (args : Args) (keys : List String) : Args :=
  keys.foldl (fun acc k => acc.filter (fun p => p.1 != k)) args

/-- The two physical database connections of the facade. -/
inductive Conn where
  | main : Conn
  | primary : Conn
deriving DecidableEq

/-- The routing decision taken inside `createMethodProxy` for one entity
method invocation: which connection receives the call, and with which
argument bag.  Mirrors the source line by line: a write with a truthy
`writeToPrimary` goes to the primary connection with the flag cleaned; any
other write goes to the main connection with the flag cleaned; a read goes
to the main connection with the argument bag untouched. -/
def methodProxyRoute (methodName : String) (args : Args) : Conn × Args :=
  if isWriteMethod methodName then
    if truthy (jsGet args "writeToPrimary") then
      (.primary, cleanOptions args ["writeToPrimary"])
    else
      (.main, cleanOptions args ["writeToPrimary"])
  else
    (.main, args)

/-! ### Basic lemmas about `cleanOptions` and routing -/

theorem lookup_filter_key_ne (l : Args) (k : String) :
    (l.filter (fun p => p.1 != k)).lookup k = none := by
  induction l with
  | nil => rfl
  | cons hd tl ih =>
    by_cases h : hd.1 = k
    · simp [List.filter, h, ih]
    · simp only [List.filter]
      have hb : (hd.1 != k) = true := by simp [bne, h]
      rw [hb]
      simp only [List.lookup]
      have hk : (k == hd.1) = false := by
        simp [beq_iff_eq]
        exact fun he => h he.symm
      rw [hk]
      exact ih

theorem cleanOptions_single (args : Args) (k : String) :
    cleanOptions args [k] = args.filter (fun p => p.1 != k) := rfl

theorem cleanOptions_removes_key (args : Args) (k : String) :
    (cleanOptions args [k]).lookup k = none := by
  rw [cleanOptions_single]
  exact lookup_filter_key_ne args k

/-! ### Claim theorems: write classification and routing -/

/-- C4: `isWriteMethod` returns true for exactly the seven method names
create, update, delete, upsert, createMany, updateMany, deleteMany, and
false for every other method name. -/
theorem isWriteMethod_iff_writeSet (m : String) :
    isWriteMethod m = true ↔
      (m = "create" ∨ m = "update" ∨ m = "delete" ∨ m = "upsert" ∨
       m = "createMany" ∨ m = "updateMany" ∨ m = "deleteMany") := by
  simp [isWriteMethod, WRITE_METHODS, List.contains, List.elem_eq_mem,
    List.mem_cons, List.mem_singleton]

/-- C1: an entity method call classified as a write whose argument bag has
`writeToPrimary` set to `true` is forwarded to the primary connection, and
the forwarded argument bag does not contain the `writeToPrimary` key. -/
theorem write_with_flag_routes_to_primary (m : String) (args : Args)
    (hw : isWriteMethod m = true)
    (hf : jsGet args "writeToPrimary" = JVal.bool true) :
    (methodProxyRoute m args).1 = Conn.primary ∧
    ((methodProxyRoute m args).2).lookup "writeToPrimary" = none := by
  have ht : truthy (jsGet args "writeToPrimary") = true := by
    rw [hf]; rfl
  constructor
  · simp [methodProxyRoute, hw, ht]
  · simp only [methodProxyRoute, hw, ht, if_true]
    exact cleanOptions_removes_key args "writeToPrimary"

/-- Closed instance of `write_with_flag_routes_to_primary`: a `create` call
carrying `writeToPrimary: true` reaches the primary connection with the
flag stripped. -/
theorem write_with_flag_routes_to_primary_witness :
    (methodProxyRoute "create"
        [("data", JVal.str "X"), ("writeToPrimary", JVal.bool true)]).1 = Conn.primary ∧
    ((methodProxyRoute "create"
        [("data", JVal.str "X"), ("writeToPrimary", JVal.bool true)]).2).lookup
      "writeToPrimary" = none :=
  write_with_flag_routes_to_primary "create"
    [("data", JVal.str "X"), ("writeToPrimary", JVal.bool true)]
    (by decide) (by decide)

/-- C2: any entity method call that is not a write with `writeToPrimary`
set to `true` reaches only the main connection (the flag, declared with
type `boolean | undefined` in `WriteOptions`, is assumed well-typed):
a write with the flag absent or `false` goes to main with the flag removed,
and a read goes to main with its argument bag unmodified. -/
theorem non_flagged_call_routes_to_main (m : String) (args : Args)
    (hty : jsGet args "writeToPrimary" = JVal.undefined ∨
           jsGet args "writeToPrimary" = JVal.bool true ∨
           jsGet args "writeToPrimary" = JVal.bool false)
    (h : ¬ (isWriteMethod m = true ∧ jsGet args "writeToPrimary" = JVal.bool true)) :
    (methodProxyRoute m args).1 = Conn.main ∧
    (isWriteMethod m = true →
      ((methodProxyRoute m args).2).lookup "writeToPrimary" = none) ∧
    (isWriteMethod m = false → (methodProxyRoute m args).2 = args) := by
  by_cases hw : isWriteMethod m = true
  · have hne : jsGet args "writeToPrimary" ≠ JVal.bool true := fun he => h ⟨hw, he⟩
    have ht : truthy (jsGet args "writeToPrimary") = false := by
      rcases hty with h1 | h1 | h1
      · rw [h1]; rfl
      · exact absurd h1 hne
      · rw [h1]; rfl
    refine ⟨?_, fun _ => ?_, fun hr => absurd hw (by simp [hr])⟩
    · simp [methodProxyRoute, hw, ht]
    · simp only [methodProxyRoute, hw, ht, if_true, if_false]
      exact cleanOptions_removes_key args "writeToPrimary"
  · have hw' : isWriteMethod m = false := by
      cases hb : isWriteMethod m
      · rfl
      · exact absurd hb hw
    refine ⟨?_, fun hc => absurd hc hw, fun _ => ?_⟩
    · simp [methodProxyRoute, hw']
    · simp [methodProxyRoute, hw']

/-- Closed instance of `non_flagged_call_routes_to_main`: an `update` call
with `writeToPrimary: false` goes to the main connection with the flag
stripped, and a `findMany` read goes to main unmodified. -/
theorem non_flagged_call_routes_to_main_witness :
    (methodProxyRoute "update" [("writeToPrimary", JVal.bool false)]).1 = Conn.main ∧
    (isWriteMethod "update" = true →
      ((methodProxyRoute "update" [("writeToPrimary", JVal.bool false)]).2).lookup
        "writeToPrimary" = none) ∧
    (isWriteMethod "update" = false →
      (methodProxyRoute "update" [("writeToPrimary", JVal.bool false)]).2 =
        [("writeToPrimary", JVal.bool false)]) :=
  non_flagged_call_routes_to_main "update" [("writeToPrimary", JVal.bool false)]
    (by decide) (by decide)

/-- C3 counterexample: the claim that every forwarded argument bag is free
of `writeToPrimary` fails for read calls.  `findMany` is not a write, so
its argument bag is forwarded unmodified, still containing the key. -/
theorem read_forwards_flag_counterexample :
    ((methodProxyRoute "findMany" [("writeToPrimary", JVal.bool true)]).2).lookup
        "writeToPrimary" ≠ none := by
  decide

/-- C3 amended: for every write-classified method call, the argument bag
forwarded to the underlying connection never contains `writeToPrimary`;
read calls forward their argument bag unmodified (so the key survives
there). -/
theorem write_forwarded_args_clean (m : String) (args : Args)
    (hw : isWriteMethod m = true) :
    ((methodProxyRoute m args).2).lookup "writeToPrimary" = none := by
  by_cases ht : truthy (jsGet args "writeToPrimary") = true
  · simp only [methodProxyRoute, hw, ht, if_true]
    exact cleanOptions_removes_key args "writeToPrimary"
  · have ht' : truthy (jsGet args "writeToPrimary") = false := by
      cases hb : truthy (jsGet args "writeToPrimary")
      · rfl
      · exact absurd hb ht
    simp only [methodProxyRoute, hw, ht', if_true, if_false]
    exact cleanOptions_removes_key args "writeToPrimary"

/-- Closed instance of `write_forwarded_args_clean`: a `deleteMany` call
whose bag carries `writeToPrimary: false` is forwarded without the key. -/
theorem write_forwarded_args_clean_witness :
    ((methodProxyRoute "deleteMany"
        [("where", JVal.null), ("writeToPrimary", JVal.bool false)]).2).lookup
      "writeToPrimary" = none :=
  write_forwarded_args_clean "deleteMany"
    [("where", JVal.null), ("writeToPrimary", JVal.bool false)] (by decide)

/-! ### Transaction routing (`$transaction` handler in `createPrismaProxy`) -/

/-- What one `$transaction` call forwards: the chosen connection, the whole
operation batch, and the options object handed to that connection's
transaction primitive. -/
structure TxForward (α : Type) where
  conn : Conn
  ops : α
  txOptions : Args
deriving DecidableEq

/-- The `$transaction` handler of `createPrismaProxy`: it destructures
`writeToPrimary`, `timeout` and the rest out of `options` (defaulting to an
empty object when `options` is omitted, modelled as `none`), then awaits
the whole batch on `prismaPrimary.$transaction` when the flag is truthy and
on `prismaMain.$transaction` otherwise, passing the extracted `timeout`
spread together with the remaining options. -/
def runTransaction {α : Type} (ops : α) (options : Option Args) : TxForward α :=
  let opts := options.getD []
  let writeToPrimary := jsGet opts "writeToPrimary"
  let timeout := jsGet opts "timeout"
  let rest := cleanOptions opts ["writeToPrimary", "timeout"]
  if truthy writeToPrimary then
    ⟨.primary, ops, ("timeout", timeout) :: rest⟩
  else
    ⟨.main, ops, ("timeout", timeout) :: rest⟩

/-- C5: `runTransaction` with `writeToPrimary: true` sends the entire batch
to the primary connection, and with the flag `false` or absent to the main
connection (the flag, typed `boolean | undefined`, is assumed well-typed);
in both cases the batch is forwarded whole to one connection and the
forwarded options are the extracted `timeout` together with the remaining
options, with the routing flag removed. -/
theorem runTransaction_routing {α : Type} (ops : α) (options : Option Args)
    (hty : jsGet (options.getD []) "writeToPrimary" = JVal.undefined ∨
           jsGet (options.getD []) "writeToPrimary" = JVal.bool true ∨
           jsGet (options.getD []) "writeToPrimary" = JVal.bool false) :
    (runTransaction ops options).conn =
      (if jsGet (options.getD []) "writeToPrimary" = JVal.bool true
       then Conn.primary else Conn.main) ∧
    (runTransaction ops options).ops = ops ∧
    (runTransaction ops options).txOptions =
      ("timeout", jsGet (options.getD []) "timeout") ::
        cleanOptions (options.getD []) ["writeToPrimary", "timeout"] := by
  rcases hty with h1 | h1 | h1 <;>
    simp [runTransaction, h1, truthy]

/-- Closed instance of `runTransaction_routing`: a batch of three prepared
operations with `writeToPrimary: true`, a timeout and an isolation level is
routed whole to the primary connection, with the timeout and the isolation
level passed through and the routing flag gone. -/
theorem runTransaction_routing_witness :
    (runTransaction [10, 20, 30]
        (some [("writeToPrimary", JVal.bool true), ("timeout", JVal.num 5000),
               ("isolationLevel", JVal.str "Serializable")])).conn =
      (if jsGet ((some [("writeToPrimary", JVal.bool true), ("timeout", JVal.num 5000),
               ("isolationLevel", JVal.str "Serializable")] : Option Args).getD [])
            "writeToPrimary" = JVal.bool true
       then Conn.primary else Conn.main) ∧
    (runTransaction [10, 20, 30]
        (some [("writeToPrimary", JVal.bool true), ("timeout", JVal.num 5000),
               ("isolationLevel", JVal.str "Serializable")])).ops = [10, 20, 30] ∧
    (runTransaction [10, 20, 30]
        (some [("writeToPrimary", JVal.bool true), ("timeout", JVal.num 5000),
               ("isolationLevel", JVal.str "Serializable")])).txOptions =
      ("timeout", jsGet ((some [("writeToPrimary", JVal.bool true), ("timeout", JVal.num 5000),
               ("isolationLevel", JVal.str "Serializable")] : Option Args).getD [])
          "timeout") ::
        cleanOptions ((some [("writeToPrimary", JVal.bool true), ("timeout", JVal.num 5000),
               ("isolationLevel", JVal.str "Serializable")] : Option Args).getD [])
          ["writeToPrimary", "timeout"] :=
  runTransaction_routing [10, 20, 30]
    (some [("writeToPrimary", JVal.bool true), ("timeout", JVal.num 5000),
           ("isolationLevel", JVal.str "Serializable")])
    (by decide)

/-! ### Errors, promises and the full method proxy

A JavaScript thrown value is either an `Error` instance carrying a message,
or an arbitrary non-`Error` value.  A settled promise is `Except JsThrown`.
A call into a connection completes synchronously either by throwing or by
returning a promise, so its synchronous result is
`Except JsThrown (Except JsThrown α)`: the outer layer is a synchronous
throw, the inner one the eventual settlement of the returned promise. -/

/-- A thrown JavaScript value: an `Error` (with its message) or any other
value (for which `instanceof Error` is false). -/
inductive JsThrown where
  | err : String → JsThrown
  | val : JVal → JsThrown
deriving DecidableEq

/-- The catch clause of `createMethodProxy`: when the caught value is an
`Error` instance, append " (Method: m, Model: n)" to its message; other
thrown values are left untouched.  The value is then re-thrown. -/
def addMethodContext (methodName modelName : String) : JsThrown → JsThrown
  | .err msg =>
      .err (msg ++ " (Method: " ++ methodName ++ ", Model: " ++ modelName ++ ")")
  | .val v => .val v

/-- The two underlying Prisma connections, each exposing per-model methods.
A call takes the model name, the method name and the argument bag, and
completes synchronously with a throw (outer `error`) or with a returned
promise (outer `ok`) that later settles (inner `Except`).  Prisma model
methods return promises and reject asynchronously rather than throwing
synchronously, but the model keeps both layers so the proxy's `try/catch`
is represented faithfully. -/
structure Backends (α : Type) where
  main : String → String → Args → Except JsThrown (Except JsThrown α)
  primary : String → String → Args → Except JsThrown (Except JsThrown α)

/-- The method returned by `createMethodProxy`'s `get` trap for one model
and method name, applied to an argument bag.  The body runs inside
`try/catch`: it routes via `methodProxyRoute` and returns the underlying
call's promise without awaiting it, so the catch clause (which adds the
method/model context) fires only on a synchronous throw — a promise that
the underlying call returns, even one that later rejects, passes through
untouched. -/
def createMethodProxy {α : Type} (b : Backends α) (modelName methodName : String)
    (args : Args) : Except JsThrown (Except JsThrown α) :=
  let routed := methodProxyRoute methodName args
  let raw :=
    match routed.1 with
    | .main => b.main modelName methodName routed.2
    | .primary => b.primary modelName methodName routed.2
  match raw with
  | .error e => .error (addMethodContext methodName modelName e)
  | .ok p => .ok p

/-- C6 evaluated at its own scenario: the main connection's `create` on
model `product` returns a promise that rejects with
`Error("unique violation")`.  Because `createMethodProxy` returns the
promise without awaiting it, the rejection bypasses the catch clause and
the caller receives the error with its original message, without the
"(Method: create, Model: product)" context the spec promises. -/
theorem rejected_promise_bypasses_context :
    createMethodProxy
      (Backends.mk
        (fun _ _ _ => Except.ok (Except.error (JsThrown.err "unique violation")))
        (fun _ _ _ => Except.ok (Except.ok 0)))
      "product" "create" [("data", JVal.str "X")] =
      Except.ok (Except.error (JsThrown.err "unique violation")) := by
  rfl

/-! ### Health check (`checkDatabaseHealth`) -/

/-- The structured verdict returned by the health check. -/
structure HealthResult where
  status : String
  details : String
deriving DecidableEq

/-- The `details` string computed in the catch clause:
`error instanceof Error ? error.message : "Unknown error"`. -/
def healthErrorDetails : JsThrown → String
  | .err msg => msg
  | .val _ => "Unknown error"

/-- `checkDatabaseHealth`: awaits `SELECT 1` on the main connection inside
`try/catch` (its outcome is the `query` argument) and always returns a
verdict — "healthy" with a success detail on success, "unhealthy" with the
captured error's message (or "Unknown error" for a non-`Error` throw) on
failure.  The `Except` result records that the function itself could
throw; it never does. -/
def checkDatabaseHealth (query : Except JsThrown Unit) :
    Except JsThrown HealthResult :=
  match query with
  | .ok _ => .ok ⟨"healthy", "Database connection successful"⟩
  | .error e => .ok ⟨"unhealthy", healthErrorDetails e⟩

/-- C7: `checkDatabaseHealth` never raises; it returns the healthy verdict
with the success detail string when the round-trip query succeeds, the
unhealthy verdict with the captured error's message when the query throws
an `Error`, and the unhealthy verdict with the generic "Unknown error"
string when the thrown value carries no message. -/
theorem checkDatabaseHealth_verdicts (query : Except JsThrown Unit) :
    (checkDatabaseHealth query).isOk = true ∧
    (query = Except.ok () →
      checkDatabaseHealth query =
        Except.ok ⟨"healthy", "Database connection successful"⟩) ∧
    (∀ msg, query = Except.error (JsThrown.err msg) →
      checkDatabaseHealth query = Except.ok ⟨"unhealthy", msg⟩) ∧
    (∀ v, query = Except.error (JsThrown.val v) →
      checkDatabaseHealth query = Except.ok ⟨"unhealthy", "Unknown error"⟩) := by
  refine ⟨?_, ?_, ?_, ?_⟩
  · cases query with
    | ok u => rfl
    | error e => rfl
  · intro h; rw [h]; rfl
  · intro msg h; rw [h]; rfl
  · intro v h; rw [h]; rfl

/-- Closed instance of `checkDatabaseHealth_verdicts`: a query rejecting
with `Error("connection refused")` yields the unhealthy verdict carrying
that message, and a succeeding query yields the healthy verdict. -/
theorem checkDatabaseHealth_verdicts_witness :
    checkDatabaseHealth (Except.error (JsThrown.err "connection refused")) =
      Except.ok ⟨"unhealthy", "connection refused"⟩ ∧
    checkDatabaseHealth (Except.ok ()) =
      Except.ok ⟨"healthy", "Database connection successful"⟩ :=
  ⟨(checkDatabaseHealth_verdicts
      (Except.error (JsThrown.err "connection refused"))).2.2.1
        "connection refused" rfl,
   (checkDatabaseHealth_verdicts (Except.ok ())).2.1 rfl⟩

/-! ### Graceful shutdown (`disconnectPrisma`) -/

/-- What `disconnectPrisma` logged on one invocation. -/
inductive ShutdownLog where
  | skipped : ShutdownLog
  | success : ShutdownLog
  | failure : JsThrown → ShutdownLog
deriving DecidableEq

/-- `Promise.all` on the two disconnect promises: resolves when both do,
rejects with the first rejection otherwise. -/
def promiseAll2 (a b : Except JsThrown Unit) : Except JsThrown Unit :=
  match a with
  | .error e => .error e
  | .ok _ => b

/-- `disconnectPrisma`: inside `try/catch`, return immediately off the
server, otherwise await both clients' `$disconnect` via `Promise.all` and
log success; any error is caught and logged (`ShutdownLog.failure`), never
re-thrown.  The disconnect outcomes of the two clients are the `dMain` and
`dPrimary` arguments. -/
def disconnectPrisma (isServer : Bool) (dMain dPrimary : Except JsThrown Unit) :
    Except JsThrown ShutdownLog :=
  if isServer = false then .ok .skipped
  else
    match promiseAll2 dMain dPrimary with
    | .ok _ => .ok .success
    | .error e => .ok (.failure e)

/-- C8: `disconnectPrisma` never raises past its own boundary, whatever the
two clients' disconnect outcomes are, and calling it a second time — with
any outcomes the already-disconnected clients now produce — does not raise
either. -/
theorem disconnectPrisma_never_raises (s : Bool)
    (d1 d2 d3 d4 : Except JsThrown Unit) :
    (disconnectPrisma s d1 d2).isOk = true ∧
    (disconnectPrisma s d3 d4).isOk = true := by
  constructor <;>
    · simp only [disconnectPrisma]
      split
      · rfl
      · split <;> rfl

/-! ### Primary connection target (`prismaPrimary` construction) -/

/-- The connection string `prismaPrimary` is built from:
`process.env.DATABASE_PRIMARY_URL || process.env.DATABASE_URL`.  An unset
environment variable is `none`; `||` falls back on any falsy value, so an
empty string also falls back. -/
def prismaPrimaryUrl (databasePrimaryUrl : Option String)
    (databaseUrl : String) : String :=
  match databasePrimaryUrl with
  | some s => if s = "" then databaseUrl else s
  | none => databaseUrl

/-- C9: when no distinct primary connection string is configured, the
primary connection's target equals the main connection string. -/
theorem prismaPrimaryUrl_defaults_to_main (databaseUrl : String) :
    prismaPrimaryUrl none databaseUrl = databaseUrl := by
  rfl

/-! ### Object identity and mutation (`cleanOptions` frame effect)

To state that `cleanOptions` never mutates the caller's argument object,
objects get identities: a heap maps object ids to field lists, and the
JavaScript spread / `delete` operators become heap operations.  `delete`
mutates the object it is applied to in place; the point of `cleanOptions`
is that it applies `delete` only to a freshly allocated spread copy. -/

abbrev ObjId := Nat

/-- A heap of JavaScript objects: an id-to-fields table and the next fresh
id.  Well-formed heaps (`Heap.wf`) only hold ids below `nextId`. -/
structure Heap where
  objs : List (ObjId × Args)
  nextId : ObjId
deriving DecidableEq

def Heap.wf (h : Heap) : Prop :=
  ∀ p ∈ h.objs, p.1 < h.nextId

instance (h : Heap) : Decidable h.wf := by
  unfold Heap.wf
  infer_instance

def Heap.find (h : Heap) (r : ObjId) : Option Args :=
  h.objs.lookup r

/-- Replace the fields of object `r` (in-place mutation). -/
def Heap.update (h : Heap) (r : ObjId) (a : Args) : Heap :=
  ⟨h.objs.map (fun p => if p.1 = r then (r, a) else p), h.nextId⟩

/-- The spread `. . .args`: allocate a fresh object holding a shallow copy
of the given fields. -/
def Heap.allocCopy (h : Heap) (fields : Args) : Heap × ObjId :=
  (⟨(h.nextId, fields) :: h.objs, h.nextId + 1⟩, h.nextId)

/-- `delete obj[k]`: remove key `k` from object `r`, in place. -/
def Heap.deleteKey (h : Heap) (r : ObjId) (k : String) : Heap :=
  match h.find r with
  | none => h
  | some a => h.update r (a.filter (fun p => p.1 != k))

/-- `cleanOptions` on the heap: spread-copy the argument object into a
fresh object, delete each listed key from the copy, and return the copy's
id.  The caller's object `argsRef` is never written. -/
def cleanOptionsH (h : Heap) (argsRef : ObjId) (keys : List String) :
    Heap × ObjId :=
  match h.find argsRef with
  | none => (h, argsRef)
  | some fields =>
    let alloc := h.allocCopy fields
    (keys.foldl (fun hh k => hh.deleteKey alloc.2 k) alloc.1, alloc.2)

theorem lookup_map_update_ne (l : List (ObjId × Args)) (c r : ObjId) (a : Args)
    (hne : r ≠ c) :
    (l.map (fun p => if p.1 = c then (c, a) else p)).lookup r = l.lookup r := by
  induction l with
  | nil => rfl
  | cons hd tl ih =>
    obtain ⟨i, fs⟩ := hd
    rw [List.map_cons]
    by_cases hc : i = c
    · subst hc
      rw [if_pos rfl]
      have hb : (r == i) = false := beq_false_of_ne hne
      simp only [List.lookup, hb]
      exact ih
    · rw [if_neg hc]
      by_cases hr : r = i
      · subst hr
        simp [List.lookup]
      · have hb : (r == i) = false := beq_false_of_ne hr
        simp only [List.lookup, hb]
        exact ih

theorem Heap.find_update_ne (h : Heap) (c r : ObjId) (a : Args) (hne : r ≠ c) :
    (h.update c a).find r = h.find r :=
  lookup_map_update_ne h.objs c r a hne

theorem Heap.find_deleteKey_ne (h : Heap) (c r : ObjId) (k : String)
    (hne : r ≠ c) :
    (h.deleteKey c k).find r = h.find r := by
  unfold Heap.deleteKey
  cases hf : h.find c with
  | none => rfl
  | some a => exact Heap.find_update_ne h c r _ hne

theorem mem_of_lookup_some (l : List (ObjId × Args)) (r : ObjId) (a : Args)
    (hf : l.lookup r = some a) : (r, a) ∈ l := by
  induction l with
  | nil => exact absurd hf (by simp [List.lookup])
  | cons hd tl ih =>
    obtain ⟨i, fs⟩ := hd
    by_cases hr : r = i
    · subst hr
      simp [List.lookup] at hf
      subst hf
      exact List.mem_cons_self _ _
    · have hb : (r == i) = false := beq_false_of_ne hr
      simp only [List.lookup, hb] at hf
      exact List.mem_cons_of_mem _ (ih hf)

theorem Heap.find_lt_nextId (h : Heap) (r : ObjId) (a : Args)
    (hwf : h.wf) (hf : h.find r = some a) : r < h.nextId :=
  hwf (r, a) (mem_of_lookup_some h.objs r a hf)

/-- C10: stripping the routing flag operates on a fresh shallow copy — for
any well-formed heap and any argument object in it, `cleanOptionsH` returns
a different object id and leaves the caller's object bit-for-bit unchanged,
every original key (including `writeToPrimary`) still present. -/
theorem cleanOptions_preserves_caller_args (h : Heap) (argsRef : ObjId)
    (fields : Args) (hwf : h.wf) (hf : h.find argsRef = some fields) :
    (cleanOptionsH h argsRef ["writeToPrimary"]).2 ≠ argsRef ∧
    ((cleanOptionsH h argsRef ["writeToPrimary"]).1).find argsRef =
      some fields := by
  have hlt : argsRef < h.nextId := Heap.find_lt_nextId h argsRef fields hwf hf
  have hne : argsRef ≠ h.nextId := Nat.ne_of_lt hlt
  unfold cleanOptionsH
  rw [hf]
  simp only [Heap.allocCopy, List.foldl]
  constructor
  · exact fun he => hne he.symm
  · rw [Heap.find_deleteKey_ne _ h.nextId argsRef "writeToPrimary" hne]
    simp only [Heap.find, List.lookup]
    have : (argsRef == h.nextId) = false := by simp [beq_iff_eq, hne]
    rw [this]
    exact hf

/-- Closed instance of `cleanOptions_preserves_caller_args`: on a heap
holding one argument object with a `data` field and `writeToPrimary: true`,
cleaning returns a fresh object and the original object still holds both
keys. -/
theorem cleanOptions_preserves_caller_args_witness :
    (cleanOptionsH
        ⟨[(0, [("data", JVal.str "X"), ("writeToPrimary", JVal.bool true)])], 1⟩
        0 ["writeToPrimary"]).2 ≠ 0 ∧
    ((cleanOptionsH
        ⟨[(0, [("data", JVal.str "X"), ("writeToPrimary", JVal.bool true)])], 1⟩
        0 ["writeToPrimary"]).1).find 0 =
      some [("data", JVal.str "X"), ("writeToPrimary", JVal.bool true)] :=
  cleanOptions_preserves_caller_args
    ⟨[(0, [("data", JVal.str "X"), ("writeToPrimary", JVal.bool true)])], 1⟩
    0 [("data", JVal.str "X"), ("writeToPrimary", JVal.bool true)]
    (by decide) (by decide)

end Wafi
